import Mathlib

/- Verification of the language-change simulation in src/model.py
(class Agent and class LangChangeModel).

Randomness is modelled by passing every drawn value explicitly:
a rational u for each uniform draw in [0,1) (np.random.choice over the
two-token alphabet is inverse-CDF sampling, random.random() is a plain
uniform draw), and an arbitrary natural number i for np.random.randint(k),
used as i % k (every value randint can return is representable, and no
other value is). -/

namespace LangChange

/-- The two linguemes of the alphabet ('A', 'B') from the model configuration. -/
inductive Token where
  | A
  | B
deriving DecidableEq, Repr

/-- A memory cell.  Python memories hold the strings drawn by
np.random.choice, and appended sampled_token values, which are None before
an agent's first speak; Option Token mirrors this exactly. -/
abbrev Cell := Option Token

/-- The model configuration dictionary (the fields the core reads). -/
structure Params where
  agents : Nat
  memory_size : Nat
  initial_frequency : ℚ
  number_of_neighbors : Nat
  network_density : ℚ
  interactor_selection : Bool
  replicator_selection : Bool
  neutral_change : Bool
  selection_pressure : ℚ
  n : Nat
  time : Nat
  steps : Nat

/-- State of one Agent: its agentpy id and the attributes set in Agent.setup. -/
structure AgentState where
  id : Nat
  memory : List Cell
  x : ℚ
  updated_x : ℚ
  A : ℚ
  sampled_token : Cell
deriving DecidableEq, Repr

/-- Inverse-CDF sampling of np.random.choice(lingueme, p=[x, 1-x]) at a
uniform draw u in [0,1): token A iff u < x. -/
def sampleToken (x u : ℚ) : Token :=
  if u < x then Token.A else Token.B

/-- np.random.choice(lingueme, size=..., p=[x, 1-x]): one uniform draw per cell. -/
def sampleMemory (x : ℚ) (us : List ℚ) : List Cell :=
  us.map (fun u => some (sampleToken x u))

/-- np.count_nonzero(memory == 'A'). -/
def countA (mem : List Cell) : Nat :=
  mem.count (some Token.A)

/-- np.count_nonzero(memory == 'A') / len(memory). -/
def freqA (mem : List Cell) : ℚ :=
  (countA mem : ℚ) / (mem.length : ℚ)

/-- The remove-then-append idiom used by reinforce and listen:
np.delete(memory, i) at a random index i = np.random.randint(len(memory)),
followed by np.append(memory, t). -/
def replaceAt (mem : List Cell) (i : Nat) (t : Cell) : List Cell :=
  mem.eraseIdx (i % mem.length) ++ [t]

/-- Agent.setup: draw the initial memory with p = [initial_frequency, 1 -
initial_frequency], set x and updated_x to initial_frequency, compute A,
and leave sampled_token as None. -/
def Agent.setup (p : Params) (aid : Nat) (us : List ℚ) : AgentState :=
  let mem := sampleMemory p.initial_frequency us
  { id := aid
    memory := mem
    x := p.initial_frequency
    updated_x := p.initial_frequency
    A := freqA mem
    sampled_token := none }

/-- Agent.speak: sample one token with P(A) = updated_x and store it in
sampled_token. -/
def Agent.speak (a : AgentState) (u : ℚ) : AgentState :=
  { a with sampled_token := some (sampleToken a.updated_x u) }

/-- Agent.reinforce: remove the element at a random index of the memory and
append a copy of the agent's own sampled_token. -/
def Agent.reinforce (a : AgentState) (i : Nat) : AgentState :=
  { a with memory := replaceAt a.memory i a.sampled_token }

/-- The random draws consumed by one Agent.listen call, one per call site
in the source: the neutral-change randint, the randint of the combined
replicator-and-interactor branch, the randint of the interactor-only
branch, the randint of the replicator-only branch, and the random.random()
draw compared against selection_pressure. -/
structure ListenRand where
  iNeutral : Nat
  iSel : Nat
  iInt : Nat
  iRep : Nat
  u : ℚ
deriving Repr

/-- Agent.listen, with the source's nested-if structure kept intact:
an unconditional neutral-change replacement first; then, when both
replicator_selection and interactor_selection are set, a single branch
gated by id > n, neighbour id <= n, the B/A token pattern, and the
selection_pressure draw; otherwise the interactor-only and
replicator-only blocks run in sequence. -/
def Agent.listen (p : Params) (a nb : AgentState) (r : ListenRand) : AgentState :=
  let mem1 := if p.neutral_change then replaceAt a.memory r.iNeutral nb.sampled_token
              else a.memory
  let mem2 :=
    if p.replicator_selection && p.interactor_selection then
      if p.n < a.id then
        if nb.id ≤ p.n then
          if a.sampled_token = some Token.B ∧ nb.sampled_token = some Token.A then
            if r.u < p.selection_pressure then
              replaceAt mem1 r.iSel nb.sampled_token
            else mem1
          else mem1
        else mem1
      else mem1
    else
      let memI :=
        if p.interactor_selection then
          if p.n < a.id then
            if nb.id ≤ p.n then replaceAt mem1 r.iInt nb.sampled_token else mem1
          else mem1
        else mem1
      if p.replicator_selection then
        if a.sampled_token = some Token.B ∧ nb.sampled_token = some Token.A then
          if r.u < p.selection_pressure then replaceAt memI r.iRep nb.sampled_token
          else memI
        else memI
      else memI
  { a with memory := mem2 }

/-- Agent.update: recompute A and updated_x as count of A over memory length. -/
def Agent.update (a : AgentState) : AgentState :=
  { a with A := freqA a.memory, updated_x := freqA a.memory }

/-- Restatement of the spec sentence for the combined branch of listen
(section 4.1 of the spec): with both selection mechanisms on, a single
conjunctive gate decides the one selection replacement; nothing else
beyond the neutral-change replacement touches the memory. -/
def listenCombinedSpec (p : Params) (a nb : AgentState) (r : ListenRand) : List Cell :=
  let mem1 := if p.neutral_change then replaceAt a.memory r.iNeutral nb.sampled_token
              else a.memory
  if p.n < a.id ∧ nb.id ≤ p.n ∧ a.sampled_token = some Token.B ∧
      nb.sampled_token = some Token.A ∧ r.u < p.selection_pressure then
    replaceAt mem1 r.iSel nb.sampled_token
  else mem1

/-- A concrete configuration with both selection mechanisms enabled, used
by witnesses. -/
def pC1 : Params :=
  { agents := 4, memory_size := 2, initial_frequency := 1/2,
    number_of_neighbors := 2, network_density := 0,
    interactor_selection := true, replicator_selection := true,
    neutral_change := false, selection_pressure := 1/2,
    n := 1, time := 1, steps := 5 }

/-- A concrete ordinary agent (id > n) that sampled B, used by witnesses. -/
def aC1 : AgentState :=
  { id := 2, memory := [some Token.B, some Token.B], x := 1/2,
    updated_x := 1/2, A := 0, sampled_token := some Token.B }

/-- A concrete privileged neighbour (id <= n) that sampled A, used by witnesses. -/
def nbC1 : AgentState :=
  { id := 1, memory := [some Token.A, some Token.A], x := 1/2,
    updated_x := 1/2, A := 1, sampled_token := some Token.A }

/-- Concrete listen draws used by witnesses. -/
def rC1 : ListenRand :=
  { iNeutral := 0, iSel := 0, iInt := 0, iRep := 0, u := 0 }

/-- A network: its agentpy object id, the agent ids at its graph nodes
(in graph node order), and the graph adjacency restricted to the network. -/
structure Network where
  id : Nat
  nodes : List Nat
  adj : Nat → List Nat

/-- network.graph.subgraph(nodes): adjacency of the induced subgraph. -/
def inducedAdj (adj : Nat → List Nat) (nodes : List Nat) : Nat → List Nat :=
  fun v => (adj v).filter (fun w => nodes.contains w)

/-- One Kernighan-Lin swap: exchange one node of each side of the
bipartition; a pair not straddling the cut is ignored. -/
def klSwap (st : List Nat × List Nat) (pr : Nat × Nat) : List Nat × List Nat :=
  if pr.1 ∈ st.1 ∧ pr.2 ∈ st.2 then
    (pr.2 :: st.1.erase pr.1, pr.1 :: st.2.erase pr.2)
  else st

/-- The random shuffle of the node labels, sanitized to its contract: a
proposed rearrangement is used only when it is a rearrangement of the
nodes, so the function is total over arbitrary random input. -/
def sanitizeShuffle (proposed nodes : List Nat) : List Nat :=
  if (proposed : Multiset Nat) = (nodes : Multiset Nat) then proposed else nodes

/-- Modelled from the spec: nx.community.kernighan_lin_bisection, a
library call whose code is not part of this repository.  Per its
documented behaviour and the spec (section 4.3), it shuffles the node
labels, splits them into two sides of sizes floor(k/2) and ceil(k/2), and
then improves the edge cut by repeatedly swapping one node of each side,
which never changes the sides' sizes.  The shuffle and the performed
swaps are the random input. -/
def kernighan_lin_bisection (nodes proposed : List Nat) (swaps : List (Nat × Nat)) :
    List Nat × List Nat :=
  let labels := sanitizeShuffle proposed nodes
  swaps.foldl klSwap (labels.take (labels.length / 2), labels.drop (labels.length / 2))

/-- LangChangeModel.partition_network: bisect the network's graph and
build the two child networks on the induced subgraphs; the children get
the next two fresh agentpy object ids. -/
def Model.partition_network (net : Network) (proposed : List Nat)
    (swaps : List (Nat × Nat)) (freshId : Nat) : Network × Network :=
  let pr := kernighan_lin_bisection net.nodes proposed swaps
  ({ id := freshId, nodes := pr.1, adj := inducedAdj net.adj pr.1 },
   { id := freshId + 1, nodes := pr.2, adj := inducedAdj net.adj pr.2 })

/-- A concrete three-node network used by witnesses. -/
def netC4 : Network :=
  { id := 9, nodes := [1, 2, 3],
    adj := fun v => if v = 1 then [2, 3] else if v = 2 then [1] else if v = 3 then [1] else [] }

/-- The random draws consumed by one call of LangChangeModel.action:
the two speak draws, the two reinforce randints, and the two listen
draw bundles, in execution order. -/
structure ActionRand where
  uAg : ℚ
  uNb : ℚ
  iAg : Nat
  iNb : Nat
  lAg : ListenRand
  lNb : ListenRand
deriving Repr

/-- LangChangeModel.action: for the pair (agent, neighbor) run speak,
speak, reinforce, reinforce, listen (agent to neighbor), listen
(neighbor to the agent's state as it is after the agent's own listen),
update, update, in that order. -/
def Model.action (p : Params) (ag nb : AgentState) (r : ActionRand) : AgentState × AgentState :=
  let ag1 := Agent.speak ag r.uAg
  let nb1 := Agent.speak nb r.uNb
  let ag2 := Agent.reinforce ag1 r.iAg
  let nb2 := Agent.reinforce nb1 r.iNb
  let ag3 := Agent.listen p ag2 nb2 r.lAg
  let nb3 := Agent.listen p nb2 ag3 r.lNb
  (Agent.update ag3, Agent.update nb3)

/-- Restatement of the spec sentence for the interaction protocol
(section 4.2): the same eight operations in the same order, but with the
neighbour listening to the agent state from before the agent's own
listen, making explicit that each party hears the token the other
produced by speak in this interaction. -/
def actionSpec (p : Params) (ag nb : AgentState) (r : ActionRand) : AgentState × AgentState :=
  let ag1 := Agent.speak ag r.uAg
  let nb1 := Agent.speak nb r.uNb
  let ag2 := Agent.reinforce ag1 r.iAg
  let nb2 := Agent.reinforce nb1 r.iNb
  let ag3 := Agent.listen p ag2 nb2 r.lAg
  let nb3 := Agent.listen p nb2 ag2 r.lNb
  (Agent.update ag3, Agent.update nb3)

/-- The error raised inside run_interactions: random.choice on an empty
sequence raises IndexError in Python; choosing from an empty agent list
or an empty neighbour list is the only failure point. -/
inductive InteractionError where
  | noAgents
  | noNeighbours
deriving DecidableEq, Repr

/-- The random draws consumed by one iteration of run_interactions: the
agent choice, the neighbour choice, and the action draws. -/
structure PickRand where
  agentIdx : Nat
  neighbourIdx : Nat
  act : ActionRand
deriving Repr

/-- One iteration of LangChangeModel.run_interactions: choose a random
agent of the network, compute its neighbour list from the network graph,
choose a random neighbour (an empty list makes random.choice raise), and
perform the action on the pair, writing both updated agents back. -/
def Model.runOneInteraction (p : Params) (net : Network) (ags : Nat → AgentState)
    (r : PickRand) : Except InteractionError (Nat → AgentState) :=
  if net.nodes.isEmpty then Except.error InteractionError.noAgents
  else
    let aid := net.nodes.getD (r.agentIdx % net.nodes.length) 0
    let nbs := net.adj aid
    if nbs.isEmpty then Except.error InteractionError.noNeighbours
    else
      let nid := nbs.getD (r.neighbourIdx % nbs.length) 0
      let pr := Model.action p (ags aid) (ags nid) r.act
      Except.ok (fun j => if j = aid then pr.1 else if j = nid then pr.2 else ags j)

/-- LangChangeModel.run_interactions: repeat the single interaction
p.time times; an exception aborts the loop and propagates. -/
def Model.run_interactions (p : Params) (net : Network) (rs : Nat → PickRand)
    (ags : Nat → AgentState) : Except InteractionError (Nat → AgentState) :=
  (List.range p.time).foldlM (fun a t => Model.runOneInteraction p net a (rs t)) ags

/-- State of the LangChangeModel between steps: the agent population, the
active networks, the partition hierarchy (parent id with its two child
ids, in creation order), the record_data flag, the iteration counter,
the agentpy object-id counter, the running flag (false once stop() ran),
and the recorded (network id, frequency) time series. -/
structure ModelState where
  agents : Nat → AgentState
  networks : List Network
  hierarchy : List (Nat × Nat × Nat)
  record_data : Bool
  iteration : Nat
  nextId : Nat
  running : Bool
  log : List (Nat × ℚ)

/-- The random draws consumed by one simulation step: per network index,
the interaction draws, and (at a partition step) the shuffle and swap
sequence of its bisection. -/
structure StepRand where
  picks : Nat → Nat → PickRand
  shuffles : Nat → List Nat
  swaps : Nat → List (Nat × Nat)

/-- Run the interactions of every active network in order. -/
def Model.runNetsGo (p : Params) (picks : Nat → Nat → PickRand) :
    Nat → List Network → (Nat → AgentState) → Except InteractionError (Nat → AgentState)
  | _, [], ags => Except.ok ags
  | k, net :: rest, ags =>
    match Model.run_interactions p net (picks k) ags with
    | Except.error e => Except.error e
    | Except.ok ags1 => Model.runNetsGo p picks (k + 1) rest ags1

/-- Partition every active network, collecting the new networks, the new
hierarchy entries, and the advanced id counter. -/
def Model.partitionAllGo (shuffles : Nat → List Nat) (swaps : Nat → List (Nat × Nat)) :
    Nat → List Network → Nat → List Network × List (Nat × Nat × Nat) × Nat
  | _, [], nid => ([], [], nid)
  | k, net :: rest, nid =>
    let pr := Model.partition_network net (shuffles k) (swaps k) nid
    let rest1 := Model.partitionAllGo shuffles swaps (k + 1) rest (nid + 2)
    (pr.1 :: pr.2 :: rest1.1, (net.id, nid, nid + 1) :: rest1.2.1, rest1.2.2)

/-- min(len(subnet.agents) for subnet in networks); the Python min is only
ever applied to a nonempty list, for which this function agrees with it. -/
def minNetSize (nets : List Network) : Nat :=
  match nets.map (fun net => net.nodes.length) with
  | [] => 0
  | x :: xs => xs.foldl min x

/-- sum(agent.A for agent in network.agents) / len(network.agents). -/
def netFreq (net : Network) (ags : Nat → AgentState) : ℚ :=
  (net.nodes.map (fun j => (ags j).A)).sum / (net.nodes.length : ℚ)

/-- The partition phase of LangChangeModel.step: after incrementing the
iteration counter, when it reaches 10 reset it to 0 and replace the
active networks by all their bisection children; otherwise leave
networks, hierarchy, id counter unchanged.  Returns (networks,
hierarchy, nextId, iteration). -/
def Model.maybePartition (r : StepRand) (s : ModelState) :
    List Network × List (Nat × Nat × Nat) × Nat × Nat :=
  if s.iteration + 1 = 10 then
    let q := Model.partitionAllGo r.shuffles r.swaps 0 s.networks s.nextId
    (q.1, s.hierarchy ++ q.2.1, q.2.2, 0)
  else (s.networks, s.hierarchy, s.nextId, s.iteration + 1)

/-- The tail of LangChangeModel.step after the interactions: possible
partition, then the stop check — if the smallest active network has at
most 10 agents, clear record_data and stop the run. -/
def Model.stepCore (r : StepRand) (s : ModelState) (ags1 : Nat → AgentState) : ModelState :=
  let q := Model.maybePartition r s
  if minNetSize q.1 ≤ 10 then
    { agents := ags1, networks := q.1, hierarchy := q.2.1, nextId := q.2.2.1,
      iteration := q.2.2.2, record_data := false, running := false, log := s.log }
  else
    { agents := ags1, networks := q.1, hierarchy := q.2.1, nextId := q.2.2.1,
      iteration := q.2.2.2, record_data := s.record_data, running := s.running, log := s.log }

/-- LangChangeModel.step: run the interactions of every active network,
then the partition phase and the stop check. -/
def Model.step (p : Params) (r : StepRand) (s : ModelState) :
    Except InteractionError ModelState :=
  match Model.runNetsGo p r.picks 0 s.networks s.agents with
  | Except.error e => Except.error e
  | Except.ok ags1 => Except.ok (Model.stepCore r s ags1)

/-- LangChangeModel.update: when record_data is set, append every active
network's average variant-A frequency to the recorded series. -/
def Model.update (s : ModelState) : ModelState :=
  if s.record_data then
    { s with log := s.log ++ s.networks.map (fun net => (net.id, netFreq net s.agents)) }
  else s

/-- One agentpy simulation iteration: Model.step, then Model.update
(agentpy calls self.update() right after self.step() in sim_step, still
in the same iteration, even when step() called stop()). -/
def Model.sim_step (p : Params) (r : StepRand) (s : ModelState) :
    Except InteractionError ModelState :=
  match Model.step p r s with
  | Except.error e => Except.error e
  | Except.ok s1 => Except.ok (Model.update s1)

/-- The state right after LangChangeModel.setup: record_data true,
iteration 0, a single active network over the whole population, empty
hierarchy and series, and the run active. -/
def Model.initState (ags : Nat → AgentState) (net : Network) : ModelState :=
  { agents := ags, networks := [net], hierarchy := [], record_data := true,
    iteration := 0, nextId := net.id + 1, running := true, log := [] }

/-- Iterate agentpy's simulation loop k times from a state: while the
model is running, each iteration performs sim_step; once stopped no
further iteration has any effect. -/
def Model.runModel (p : Params) (rs : Nat → StepRand) (init : ModelState) :
    Nat → Except InteractionError ModelState
  | 0 => Except.ok init
  | Nat.succ k =>
    match Model.runModel p rs init k with
    | Except.error e => Except.error e
    | Except.ok s => if s.running then Model.sim_step p (rs k) s else Except.ok s

/-- The two ways LangChangeModel.setup can fail in Python.  There is no
explicit validation in the source; these are the incidental library
errors: np.random.choice validates its p argument (entries non-negative
and summing to 1, which for p = [f, 1-f] holds exactly when 0 <= f <= 1),
and the division by len(self.memory) in Agent.setup raises
ZeroDivisionError when memory_size is 0. -/
inductive SetupError where
  | invalidProbabilities
  | zeroDivision
deriving DecidableEq, Repr

/-- The failure behaviour of one Agent.setup call, in source order: the
memory draw's probability validation first, then the division computing
self.A.  No other parameter is inspected at setup. -/
def Agent.setupCheck (p : Params) : Except SetupError Unit :=
  if 0 ≤ p.initial_frequency ∧ p.initial_frequency ≤ 1 then
    if p.memory_size = 0 then Except.error SetupError.zeroDivision
    else Except.ok ()
  else Except.error SetupError.invalidProbabilities

/-- Agent.setup composed with LangChangeModel.setup's interactor-selection
block: a privileged agent (id <= n) gets x = 1 and a fresh memory drawn
with p = [1, 0]; an ordinary agent (id > n) gets x = 0 and a fresh memory
drawn with p = [0, 1]; updated_x and A are not touched.  us are the
initial-memory draws, us2 the overwrite draws. -/
def Model.setupAgent (p : Params) (aid : Nat) (us us2 : List ℚ) : AgentState :=
  let a := Agent.setup p aid us
  if p.interactor_selection then
    if a.id ≤ p.n then { a with x := 1, memory := sampleMemory 1 us2 }
    else { a with x := 0, memory := sampleMemory 0 us2 }
  else a

/-- Create agents with ids 1..k in order, with setup's failure behaviour. -/
def Model.setupAgentsGo (p : Params) (uss uss2 : Nat → List ℚ) :
    Nat → Except SetupError (List AgentState)
  | 0 => Except.ok []
  | Nat.succ k =>
    match Model.setupAgentsGo p uss uss2 k with
    | Except.error e => Except.error e
    | Except.ok acc =>
      match Agent.setupCheck p with
      | Except.error e => Except.error e
      | Except.ok _ => Except.ok (acc ++ [Model.setupAgent p (k + 1) (uss k) (uss2 k)])

/-- LangChangeModel.setup restricted to the agent population it builds:
agents 1..p.agents, each through Agent.setup and, when interactor
selection is on, the role overwrite.  Succeeds or fails exactly where the
Python setup does. -/
def Model.setupE (p : Params) (uss uss2 : Nat → List ℚ) :
    Except SetupError (List AgentState) :=
  Model.setupAgentsGo p uss uss2 p.agents

/-- Concrete interaction draws used by witnesses. -/
def rPick0 : PickRand :=
  { agentIdx := 0, neighbourIdx := 0,
    act := { uAg := 0, uNb := 0, iAg := 0, iNb := 0, lAg := rC1, lNb := rC1 } }

/-- Concrete step draws used by witnesses. -/
def rStep0 : StepRand :=
  { picks := fun _ _ => rPick0, shuffles := fun _ => [], swaps := fun _ => [] }

/-- A concrete configuration whose single network is already at the
stopping threshold, used by the C5/C6 witnesses. -/
def pC6 : Params :=
  { agents := 2, memory_size := 1, initial_frequency := 1/2,
    number_of_neighbors := 1, network_density := 0,
    interactor_selection := false, replicator_selection := false,
    neutral_change := false, selection_pressure := 0,
    n := 0, time := 1, steps := 5 }

/-- A concrete agent for the C5/C6 witnesses. -/
def agC6a : AgentState :=
  { id := 1, memory := [some Token.B], x := 1/2, updated_x := 1/2,
    A := 0, sampled_token := none }

/-- A second concrete agent for the C5/C6 witnesses. -/
def agC6b : AgentState :=
  { id := 2, memory := [some Token.B], x := 1/2, updated_x := 1/2,
    A := 0, sampled_token := none }

/-- The concrete agent population for the C5/C6 witnesses. -/
def agsC6 : Nat → AgentState :=
  fun j => if j = 1 then agC6a else agC6b

/-- The concrete two-node network for the C5/C6 witnesses. -/
def netC6 : Network :=
  { id := 3, nodes := [1, 2],
    adj := fun v => if v = 1 then [2] else if v = 2 then [1] else [] }

/-- The concrete model state entering the stopping step. -/
def sC6 : ModelState := Model.initState agsC6 netC6

/-- The concrete model state after the stopping step. -/
def sC6out : ModelState := ((Model.sim_step pC6 rStep0 sC6).toOption).getD sC6

/-- A concrete invalid configuration: n exceeds the agent count and
selection_pressure exceeds 1, both outside the ranges claim C7 declares
invalid, with every other parameter valid. -/
def pC7bad : Params :=
  { agents := 2, memory_size := 1, initial_frequency := 1/2,
    number_of_neighbors := 1, network_density := 0,
    interactor_selection := true, replicator_selection := true,
    neutral_change := false, selection_pressure := 2,
    n := 7, time := 1, steps := 5 }

/-- Concrete per-agent uniform draws for the setup witnesses. -/
def ussC7 : Nat → List ℚ := fun _ => [1/2]

/-- Concrete overwrite draws for the C10 witness. -/
def usC10 : List ℚ := [0, 1/2]

/-- A concrete network in which node 1 has no neighbours, used by the C9
witness. -/
def netC9 : Network :=
  { id := 3, nodes := [1, 2], adj := fun v => if v = 2 then [1] else [] }

/-- The memory produced by replaceAt is never empty. -/
theorem replaceAt_ne_nil (mem : List Cell) (i : Nat) (t : Cell) :
    0 < (replaceAt mem i t).length := by
  simp [replaceAt]

/-- replaceAt preserves the length of a nonempty memory: the random index
is reduced modulo the length, so the deletion always removes exactly one
element, and the append adds exactly one. -/
theorem length_replaceAt (mem : List Cell) (i : Nat) (t : Cell) (h : 0 < mem.length) :
    (replaceAt mem i t).length = mem.length := by
  have hlt : i % mem.length < mem.length := Nat.mod_lt _ h
  simp [replaceAt, List.length_eraseIdx_of_lt hlt]
  omega

/-- Claim C1: in Agent.listen with both interactor selection and
replicator selection enabled, the selection mechanisms adopt the
neighbour's token if and only if the listener's id exceeds n, the
neighbour's id is at most n, the listener sampled B while the neighbour
sampled A, and the Bernoulli draw with success probability
selection_pressure succeeds; under any other condition only the
neutral-change replacement (if enabled) touches the memory. -/
theorem C1_listen_combined_gate (p : Params) (a nb : AgentState) (r : ListenRand)
    (hrep : p.replicator_selection = true) (hint : p.interactor_selection = true) :
    (Agent.listen p a nb r).memory = listenCombinedSpec p a nb r := by
  unfold Agent.listen listenCombinedSpec
  simp only [hrep, hint, Bool.and_self, if_true]
  by_cases h1 : p.n < a.id <;>
    by_cases h2 : nb.id ≤ p.n <;>
      by_cases h3 : a.sampled_token = some Token.B ∧ nb.sampled_token = some Token.A <;>
        by_cases h4 : r.u < p.selection_pressure <;>
          simp [h1, h2, h3, h4]

/-- Witness for C1 at a concrete configuration. -/
theorem C1_listen_combined_gate_witness :
    (pC1.replicator_selection = true ∧ pC1.interactor_selection = true) ∧
      (Agent.listen pC1 aC1 nbC1 rC1).memory = listenCombinedSpec pC1 aC1 nbC1 rC1 :=
  ⟨⟨rfl, rfl⟩, C1_listen_combined_gate pC1 aC1 nbC1 rC1 rfl rfl⟩

/-- Every path through Agent.listen preserves the length of a nonempty
memory: each enabled mechanism removes one element at a random index and
appends exactly one token. -/
theorem listen_length (p : Params) (a nb : AgentState) (r : ListenRand)
    (h : 0 < a.memory.length) :
    (Agent.listen p a nb r).memory.length = a.memory.length := by
  unfold Agent.listen
  split_ifs <;>
    simp [length_replaceAt, replaceAt_ne_nil, h]

/-- Claim C2: for every agent, the memory has exactly memory_size elements
after every call to reinforce and after every call to listen, and the two
remaining operations of an interaction (speak, update) never touch the
memory; hence the invariant holds after every sequence of operations. -/
theorem C2_memory_size_invariant (p : Params) (a nb : AgentState) (r : ListenRand)
    (i : Nat) (u : ℚ)
    (hlen : a.memory.length = p.memory_size) (hpos : 0 < p.memory_size) :
    (Agent.reinforce a i).memory.length = p.memory_size ∧
      (Agent.listen p a nb r).memory.length = p.memory_size ∧
      (Agent.speak a u).memory = a.memory ∧
      (Agent.update a).memory = a.memory := by
  refine ⟨?_, ?_, rfl, rfl⟩
  · simp [Agent.reinforce, length_replaceAt, hlen, hpos]
  · rw [listen_length p a nb r (by omega)]
    exact hlen

/-- Witness for C2 at a concrete agent. -/
theorem C2_memory_size_invariant_witness :
    (aC1.memory.length = pC1.memory_size ∧ 0 < pC1.memory_size) ∧
      ((Agent.reinforce aC1 0).memory.length = pC1.memory_size ∧
        (Agent.listen pC1 aC1 nbC1 rC1).memory.length = pC1.memory_size ∧
        (Agent.speak aC1 0).memory = aC1.memory ∧
        (Agent.update aC1).memory = aC1.memory) :=
  ⟨⟨rfl, by decide⟩, C2_memory_size_invariant pC1 aC1 nbC1 rC1 0 0 rfl (by decide)⟩

/-- Claim C3: immediately after Agent.update returns, both A
(variant_A_frequency) and updated_x equal exactly the count of A tokens in
the memory divided by the memory length. -/
theorem C3_update_exact (a : AgentState) :
    (Agent.update a).A =
        (countA (Agent.update a).memory : ℚ) / ((Agent.update a).memory.length : ℚ) ∧
      (Agent.update a).updated_x =
        (countA (Agent.update a).memory : ℚ) / ((Agent.update a).memory.length : ℚ) :=
  ⟨rfl, rfl⟩

/-- A Kernighan-Lin swap moves one node of each side across the cut, so
the combined multiset of nodes is unchanged. -/
theorem klSwap_multiset (st : List Nat × List Nat) (pr : Nat × Nat) :
    ((klSwap st pr).1 : Multiset Nat) + ((klSwap st pr).2 : Multiset Nat) =
      (st.1 : Multiset Nat) + (st.2 : Multiset Nat) := by
  unfold klSwap
  split_ifs with h
  · obtain ⟨h1, h2⟩ := h
    have e1 := Multiset.cons_erase (Multiset.mem_coe.mpr h1)
    have e2 := Multiset.cons_erase (Multiset.mem_coe.mpr h2)
    dsimp only
    conv_rhs => rw [← e1, ← e2]
    rw [← Multiset.cons_coe, ← Multiset.cons_coe, ← Multiset.coe_erase, ← Multiset.coe_erase]
    simp only [Multiset.cons_add, Multiset.add_cons]
    exact Multiset.cons_swap _ _ _
  · rfl

/-- A Kernighan-Lin swap never changes the sizes of the two sides. -/
theorem klSwap_length (st : List Nat × List Nat) (pr : Nat × Nat) :
    (klSwap st pr).1.length = st.1.length ∧ (klSwap st pr).2.length = st.2.length := by
  unfold klSwap
  split_ifs with h
  · obtain ⟨h1, h2⟩ := h
    have l1 : 0 < st.1.length := List.length_pos.mpr (List.ne_nil_of_mem h1)
    have l2 : 0 < st.2.length := List.length_pos.mpr (List.ne_nil_of_mem h2)
    constructor <;> simp [List.length_erase_of_mem, h1, h2] <;> omega
  · exact ⟨rfl, rfl⟩

/-- Any sequence of Kernighan-Lin swaps preserves the combined node multiset. -/
theorem klFold_multiset (swaps : List (Nat × Nat)) (st : List Nat × List Nat) :
    ((swaps.foldl klSwap st).1 : Multiset Nat) + ((swaps.foldl klSwap st).2 : Multiset Nat) =
      (st.1 : Multiset Nat) + (st.2 : Multiset Nat) := by
  induction swaps generalizing st with
  | nil => rfl
  | cons pr rest ih => rw [List.foldl_cons, ih, klSwap_multiset]

/-- Any sequence of Kernighan-Lin swaps preserves the sizes of the sides. -/
theorem klFold_length (swaps : List (Nat × Nat)) (st : List Nat × List Nat) :
    (swaps.foldl klSwap st).1.length = st.1.length ∧
      (swaps.foldl klSwap st).2.length = st.2.length := by
  induction swaps generalizing st with
  | nil => exact ⟨rfl, rfl⟩
  | cons pr rest ih =>
      rw [List.foldl_cons]
      exact ⟨((ih _).1).trans (klSwap_length st pr).1, ((ih _).2).trans (klSwap_length st pr).2⟩

/-- The sanitized shuffle is a rearrangement of the nodes. -/
theorem sanitizeShuffle_multiset (proposed nodes : List Nat) :
    ((sanitizeShuffle proposed nodes : List Nat) : Multiset Nat) = (nodes : Multiset Nat) := by
  unfold sanitizeShuffle
  split_ifs with h
  exacts [h, rfl]

/-- The sanitized shuffle has as many labels as there are nodes. -/
theorem sanitizeShuffle_length (proposed nodes : List Nat) :
    (sanitizeShuffle proposed nodes).length = nodes.length := by
  have h := congrArg Multiset.card (sanitizeShuffle_multiset proposed nodes)
  simpa [Multiset.coe_card] using h

/-- The bisection's two sides together carry each parent node with its
original multiplicity. -/
theorem klb_multiset (nodes proposed : List Nat) (swaps : List (Nat × Nat)) :
    ((kernighan_lin_bisection nodes proposed swaps).1 : Multiset Nat) +
      ((kernighan_lin_bisection nodes proposed swaps).2 : Multiset Nat) =
      (nodes : Multiset Nat) := by
  unfold kernighan_lin_bisection
  rw [klFold_multiset]
  dsimp only
  rw [Multiset.coe_add, List.take_append_drop]
  exact sanitizeShuffle_multiset proposed nodes

/-- The bisection's sides have sizes floor(k/2) and k - floor(k/2). -/
theorem klb_length (nodes proposed : List Nat) (swaps : List (Nat × Nat)) :
    (kernighan_lin_bisection nodes proposed swaps).1.length = nodes.length / 2 ∧
      (kernighan_lin_bisection nodes proposed swaps).2.length =
        nodes.length - nodes.length / 2 := by
  unfold kernighan_lin_bisection
  constructor
  · rw [(klFold_length _ _).1]
    dsimp only
    rw [List.length_take, sanitizeShuffle_length]
    exact Nat.min_eq_left (Nat.div_le_self _ _)
  · rw [(klFold_length _ _).2]
    dsimp only
    rw [List.length_drop, sanitizeShuffle_length]

/-- Claim C4: partition_network on a network of k >= 2 nodes produces
exactly two children; every parent node belongs to exactly one child (no
duplication, no omission), each child has at least one node, and for odd
k the children's sizes differ by at most 1. -/
theorem C4_partition_two_children (net : Network) (proposed : List Nat)
    (swaps : List (Nat × Nat)) (freshId : Nat)
    (hk : 2 ≤ net.nodes.length) (hnd : net.nodes.Nodup) :
    (∀ v, (Model.partition_network net proposed swaps freshId).1.nodes.count v +
        (Model.partition_network net proposed swaps freshId).2.nodes.count v =
        net.nodes.count v) ∧
      (∀ v ∈ net.nodes,
        (v ∈ (Model.partition_network net proposed swaps freshId).1.nodes ∧
            v ∉ (Model.partition_network net proposed swaps freshId).2.nodes) ∨
          (v ∈ (Model.partition_network net proposed swaps freshId).2.nodes ∧
            v ∉ (Model.partition_network net proposed swaps freshId).1.nodes)) ∧
      1 ≤ (Model.partition_network net proposed swaps freshId).1.nodes.length ∧
      1 ≤ (Model.partition_network net proposed swaps freshId).2.nodes.length ∧
      (net.nodes.length % 2 = 1 →
        (Model.partition_network net proposed swaps freshId).1.nodes.length ≤
            (Model.partition_network net proposed swaps freshId).2.nodes.length ∧
          (Model.partition_network net proposed swaps freshId).2.nodes.length ≤
            (Model.partition_network net proposed swaps freshId).1.nodes.length + 1) := by
  have hms := klb_multiset net.nodes proposed swaps
  have hlen := klb_length net.nodes proposed swaps
  have hcount : ∀ v, (Model.partition_network net proposed swaps freshId).1.nodes.count v +
      (Model.partition_network net proposed swaps freshId).2.nodes.count v =
      net.nodes.count v := by
    intro v
    have h := congrArg (Multiset.count v) hms
    simpa [Model.partition_network, Multiset.count_add, Multiset.coe_count] using h
  refine ⟨hcount, ?_, ?_, ?_, ?_⟩
  · intro v hv
    have hc := hcount v
    rw [List.count_eq_one_of_mem hnd hv] at hc
    rcases Nat.eq_zero_or_pos
        ((Model.partition_network net proposed swaps freshId).1.nodes.count v) with h0 | hpos
    · right
      refine ⟨List.count_pos_iff.mp (by omega), fun hmem => ?_⟩
      have := List.count_pos_iff.mpr hmem
      omega
    · left
      refine ⟨List.count_pos_iff.mp hpos, fun hmem => ?_⟩
      have := List.count_pos_iff.mpr hmem
      omega
  · have h1 : (Model.partition_network net proposed swaps freshId).1.nodes.length =
        net.nodes.length / 2 := hlen.1
    omega
  · have h2 : (Model.partition_network net proposed swaps freshId).2.nodes.length =
        net.nodes.length - net.nodes.length / 2 := hlen.2
    omega
  · intro hodd
    have h1 : (Model.partition_network net proposed swaps freshId).1.nodes.length =
        net.nodes.length / 2 := hlen.1
    have h2 : (Model.partition_network net proposed swaps freshId).2.nodes.length =
        net.nodes.length - net.nodes.length / 2 := hlen.2
    omega

/-- Witness for C4 on a concrete three-node network. -/
theorem C4_partition_two_children_witness :
    (2 ≤ netC4.nodes.length ∧ netC4.nodes.Nodup) ∧
      ((∀ v, (Model.partition_network netC4 [] [] 20).1.nodes.count v +
          (Model.partition_network netC4 [] [] 20).2.nodes.count v =
          netC4.nodes.count v) ∧
        (∀ v ∈ netC4.nodes,
          (v ∈ (Model.partition_network netC4 [] [] 20).1.nodes ∧
              v ∉ (Model.partition_network netC4 [] [] 20).2.nodes) ∨
            (v ∈ (Model.partition_network netC4 [] [] 20).2.nodes ∧
              v ∉ (Model.partition_network netC4 [] [] 20).1.nodes)) ∧
        1 ≤ (Model.partition_network netC4 [] [] 20).1.nodes.length ∧
        1 ≤ (Model.partition_network netC4 [] [] 20).2.nodes.length ∧
        (netC4.nodes.length % 2 = 1 →
          (Model.partition_network netC4 [] [] 20).1.nodes.length ≤
              (Model.partition_network netC4 [] [] 20).2.nodes.length ∧
            (Model.partition_network netC4 [] [] 20).2.nodes.length ≤
              (Model.partition_network netC4 [] [] 20).1.nodes.length + 1)) :=
  ⟨⟨by decide, by decide⟩,
    C4_partition_two_children netC4 [] [] 20 (by decide) (by decide)⟩

/-- Agent.listen never modifies sampled_token (it only rewrites memory). -/
theorem listen_sampled_token (p : Params) (a nb : AgentState) (r : ListenRand) :
    (Agent.listen p a nb r).sampled_token = a.sampled_token := rfl

/-- Claim C8: one interaction runs speak, speak, reinforce, reinforce,
agent-listens-to-neighbour, neighbour-listens-to-agent, update, update in
strict order, and the token each party receives in listen is the one the
other produced by speak in this interaction: listen never modifies
sampled_token, so the neighbour hearing the agent's post-listen state is
the same as hearing its pre-listen state. -/
theorem C8_action_protocol (p : Params) (ag nb : AgentState) (r : ActionRand) :
    (∀ (x y : AgentState) (q : ListenRand),
        (Agent.listen p x y q).sampled_token = x.sampled_token) ∧
      Model.action p ag nb r = actionSpec p ag nb r :=
  ⟨fun x y q => listen_sampled_token p x y q, rfl⟩

/-- Claim C9: when the chosen agent's neighbour list in the current
network graph is empty, the neighbour-selection step fails with an error
(random.choice on the empty list raises), and run_interactions propagates
it instead of skipping to the next iteration. -/
theorem C9_no_neighbours_error (p : Params) (net : Network) (ags : Nat → AgentState)
    (r : PickRand) (rs : Nat → PickRand)
    (hne : net.nodes.isEmpty = false)
    (hnb : (net.adj (net.nodes.getD (r.agentIdx % net.nodes.length) 0)).isEmpty = true)
    (hr0 : rs 0 = r) (htime : 0 < p.time) :
    Model.runOneInteraction p net ags r = Except.error InteractionError.noNeighbours ∧
      Model.run_interactions p net rs ags = Except.error InteractionError.noNeighbours := by
  have h1 : Model.runOneInteraction p net ags r =
      Except.error InteractionError.noNeighbours := by
    unfold Model.runOneInteraction
    simp only [hne, Bool.false_eq_true, if_false]
    simp only [hnb, if_true]
  refine ⟨h1, ?_⟩
  unfold Model.run_interactions
  obtain ⟨m, hm⟩ : ∃ m, p.time = m + 1 := ⟨p.time - 1, by omega⟩
  rw [hm, List.range_succ_eq_map, List.foldlM_cons, hr0, h1]
  rfl

/-- Witness for C9: a network where agent 1 has no neighbours. -/
theorem C9_no_neighbours_error_witness :
    (netC9.nodes.isEmpty = false ∧
        (netC9.adj (netC9.nodes.getD (rPick0.agentIdx % netC9.nodes.length) 0)).isEmpty =
          true ∧ 0 < pC6.time) ∧
      (Model.runOneInteraction pC6 netC9 agsC6 rPick0 =
          Except.error InteractionError.noNeighbours ∧
        Model.run_interactions pC6 netC9 (fun _ => rPick0) agsC6 =
          Except.error InteractionError.noNeighbours) :=
  ⟨⟨rfl, rfl, by decide⟩,
    C9_no_neighbours_error pC6 netC9 agsC6 rPick0 (fun _ => rPick0) rfl rfl rfl (by decide)⟩

/-- The stop check leaves the recorded series untouched inside step. -/
theorem stepCore_log (r : StepRand) (s : ModelState) (ags1 : Nat → AgentState) :
    (Model.stepCore r s ags1).log = s.log := by
  unfold Model.stepCore
  by_cases hmin : minNetSize (Model.maybePartition r s).1 ≤ 10
  · rw [if_pos hmin]
  · rw [if_neg hmin]

/-- If a step leaves the model running, every active network kept more
than 10 agents (the stop check just passed on the post-partition set). -/
theorem stepCore_running_min (r : StepRand) (s : ModelState) (ags1 : Nat → AgentState)
    (h : (Model.stepCore r s ags1).running = true) :
    11 ≤ minNetSize (Model.stepCore r s ags1).networks := by
  unfold Model.stepCore at h ⊢
  by_cases hmin : minNetSize (Model.maybePartition r s).1 ≤ 10
  · rw [if_pos hmin] at h
    cases h
  · rw [if_neg hmin]
    show 11 ≤ minNetSize (Model.maybePartition r s).1
    omega

/-- The stop check of step: starting from a running state, the model is
stopped after the step exactly when the smallest post-partition network
has at most 10 agents. -/
theorem stepCore_stop_iff (r : StepRand) (s : ModelState) (ags1 : Nat → AgentState)
    (hrun : s.running = true) :
    ((Model.stepCore r s ags1).running = false ↔
      minNetSize (Model.stepCore r s ags1).networks ≤ 10) := by
  unfold Model.stepCore
  by_cases hmin : minNetSize (Model.maybePartition r s).1 ≤ 10
  · rw [if_pos hmin]
    exact ⟨fun _ => hmin, fun _ => rfl⟩
  · rw [if_neg hmin]
    constructor
    · intro h
      rw [hrun] at h
      cases h
    · intro h
      exact absurd h hmin

/-- When the stop condition fires, step also clears record_data. -/
theorem stepCore_stop_record (r : StepRand) (s : ModelState) (ags1 : Nat → AgentState)
    (hrun : s.running = true) (h : (Model.stepCore r s ags1).running = false) :
    (Model.stepCore r s ags1).record_data = false := by
  unfold Model.stepCore at h ⊢
  by_cases hmin : minNetSize (Model.maybePartition r s).1 ≤ 10
  · rw [if_pos hmin]
  · rw [if_neg hmin] at h
    rw [hrun] at h
    cases h

/-- Model.update only appends to the series: running flag, networks and
iteration counter are unchanged. -/
theorem update_preserves (s : ModelState) :
    (Model.update s).running = s.running ∧ (Model.update s).networks = s.networks ∧
      (Model.update s).iteration = s.iteration := by
  unfold Model.update
  split_ifs <;> exact ⟨rfl, rfl, rfl⟩

/-- With record_data cleared, Model.update records nothing. -/
theorem update_log_of_not_record (s : ModelState) (h : s.record_data = false) :
    (Model.update s).log = s.log := by
  unfold Model.update
  rw [h]
  rfl

/-- Successful sim_step results are an update of a stepCore result. -/
theorem sim_step_ok_shape (p : Params) (r : StepRand) (s s1 : ModelState)
    (h : Model.sim_step p r s = Except.ok s1) :
    ∃ a1, s1 = Model.update (Model.stepCore r s a1) := by
  unfold Model.sim_step Model.step at h
  cases hrn : Model.runNetsGo p r.picks 0 s.networks s.agents with
  | error e =>
    rw [hrn] at h
    cases h
  | ok a1 =>
    rw [hrn] at h
    cases h
    exact ⟨a1, rfl⟩

/-- A successful sim_step that leaves the model running ends with every
active network above the stopping threshold. -/
theorem sim_step_running_min (p : Params) (r : StepRand) (s s1 : ModelState)
    (h : Model.sim_step p r s = Except.ok s1) (hrun : s1.running = true) :
    11 ≤ minNetSize s1.networks := by
  obtain ⟨a1, rfl⟩ := sim_step_ok_shape p r s s1 h
  rw [(update_preserves _).1] at hrun
  rw [(update_preserves _).2.1]
  exact stepCore_running_min r s a1 hrun

/-- The running minimum of foldl min is bounded by the seed and by every
element of the list. -/
theorem foldl_min_le (xs : List Nat) (x : Nat) :
    xs.foldl min x ≤ x ∧ ∀ y ∈ xs, xs.foldl min x ≤ y := by
  induction xs generalizing x with
  | nil =>
    exact ⟨Nat.le_refl x, by simp⟩
  | cons a l ih =>
    constructor
    · exact Nat.le_trans (ih (min x a)).1 (Nat.min_le_left x a)
    · intro y hy
      rcases List.mem_cons.mp hy with rfl | hy2
      · exact Nat.le_trans (ih (min x y)).1 (Nat.min_le_right x y)
      · exact (ih (min x a)).2 y hy2

/-- minNetSize bounds the size of every member network. -/
theorem minNetSize_le (nets : List Network) (net : Network) (h : net ∈ nets) :
    minNetSize nets ≤ net.nodes.length := by
  have hmem : net.nodes.length ∈ nets.map (fun n => n.nodes.length) :=
    List.mem_map_of_mem _ h
  unfold minNetSize
  cases hm : nets.map (fun n => n.nodes.length) with
  | nil =>
    rw [hm] at hmem
    cases hmem
  | cons x xs =>
    rw [hm] at hmem
    rcases List.mem_cons.mp hmem with heq | hmem2
    · rw [heq]
      exact (foldl_min_le xs x).1
    · exact (foldl_min_le xs x).2 _ hmem2

/-- Reachability invariant of the scheduler: in any running state reached
from a setup state whose iteration counter is 9 (so the next step will
partition), every active network has more than 10 agents — the previous
step's stop check passed and interactions never change memberships. -/
theorem runModel_iter9_min (p : Params) (rs : Nat → StepRand) (ags0 : Nat → AgentState)
    (net0 : Network) (k : Nat) (s : ModelState)
    (h : Model.runModel p rs (Model.initState ags0 net0) k = Except.ok s)
    (hrun : s.running = true) (hit : s.iteration = 9) :
    11 ≤ minNetSize s.networks := by
  induction k generalizing s with
  | zero =>
    unfold Model.runModel at h
    cases h
    simp [Model.initState] at hit
  | succ m ih =>
    unfold Model.runModel at h
    cases hm : Model.runModel p rs (Model.initState ags0 net0) m with
    | error e =>
      rw [hm] at h
      cases h
    | ok t =>
      rw [hm] at h
      dsimp only at h
      by_cases ht : t.running
      · rw [if_pos ht] at h
        exact sim_step_running_min p (rs m) t s h hrun
      · rw [if_neg ht] at h
        cases h
        exact ih _ hm hrun hit

/-- Claim C5: in every run from a setup state, a partition call (which
happens exactly when the step begins with iteration counter 9) only ever
sees networks of at least 2 nodes, and the run stops on exactly the step
whose (post-partition) minimum active-network size first reaches 10 or
less: any sim_step from a reachable running state stops if and only if
that minimum is at most 10, so the transition can never happen later. -/
theorem C5_partition_precondition_and_stop (p : Params) (rs : Nat → StepRand)
    (ags0 : Nat → AgentState) (net0 : Network) (k : Nat) (s : ModelState)
    (h : Model.runModel p rs (Model.initState ags0 net0) k = Except.ok s)
    (hrun : s.running = true) :
    (s.iteration = 9 → ∀ net ∈ s.networks, 2 ≤ net.nodes.length) ∧
      (∀ (r : StepRand) (s1 : ModelState), Model.sim_step p r s = Except.ok s1 →
        (s1.running = false ↔ minNetSize s1.networks ≤ 10)) := by
  constructor
  · intro hit net hnet
    have hmin := runModel_iter9_min p rs ags0 net0 k s h hrun hit
    have hle := minNetSize_le s.networks net hnet
    omega
  · intro r s1 h1
    obtain ⟨a1, rfl⟩ := sim_step_ok_shape p r s s1 h1
    rw [(update_preserves _).1, (update_preserves _).2.1]
    exact stepCore_stop_iff r s a1 hrun

/-- Witness for C5 at the setup state of a concrete model. -/
theorem C5_partition_precondition_and_stop_witness :
    (Model.runModel pC6 (fun _ => rStep0) (Model.initState agsC6 netC6) 0 =
        Except.ok (Model.initState agsC6 netC6) ∧
      (Model.initState agsC6 netC6).running = true) ∧
      (((Model.initState agsC6 netC6).iteration = 9 →
          ∀ net ∈ (Model.initState agsC6 netC6).networks, 2 ≤ net.nodes.length) ∧
        (∀ (r : StepRand) (s1 : ModelState),
          Model.sim_step pC6 r (Model.initState agsC6 netC6) = Except.ok s1 →
            (s1.running = false ↔ minNetSize s1.networks ≤ 10))) :=
  ⟨⟨rfl, rfl⟩,
    C5_partition_precondition_and_stop pC6 (fun _ => rStep0) agsC6 netC6 0
      (Model.initState agsC6 netC6) rfl rfl⟩

/-- Counterexample to claim C6: a concrete stopping step.  The state sC6
is recording (record_data true) and running, with one active network of 2
agents, so this sim_step triggers the stop; yet its recorded series is
still empty afterwards — the stopping step's per-network aggregation was
not recorded, because step() cleared record_data before update() ran. -/
theorem C6_cex_stop_step_not_recorded :
    sC6.running = true ∧ sC6.record_data = true ∧ sC6.networks.length = 1 ∧
      Model.sim_step pC6 rStep0 sC6 = Except.ok sC6out ∧ sC6out.running = false ∧
      sC6out.log = List.nil ∧ sC6.log = List.nil :=
  ⟨rfl, rfl, rfl, rfl, rfl, rfl, rfl⟩

/-- Claim C6 as amended: on the step in which the stopping condition
triggers, record_data is cleared inside step() before the post-step
update() runs, so that step's per-network aggregation is skipped, not
recorded: the recorded series is unchanged on the stopping step. -/
theorem C6_amended_no_final_record (p : Params) (r : StepRand) (s s1 : ModelState)
    (hrun : s.running = true) (h : Model.sim_step p r s = Except.ok s1)
    (hstop : s1.running = false) : s1.log = s.log := by
  obtain ⟨a1, rfl⟩ := sim_step_ok_shape p r s s1 h
  rw [(update_preserves _).1] at hstop
  rw [update_log_of_not_record _ (stepCore_stop_record r s a1 hrun hstop)]
  exact stepCore_log r s a1

/-- Witness for the amended C6 on the concrete stopping step. -/
theorem C6_amended_no_final_record_witness :
    (sC6.running = true ∧ Model.sim_step pC6 rStep0 sC6 = Except.ok sC6out ∧
        sC6out.running = false) ∧
      sC6out.log = sC6.log :=
  ⟨⟨rfl, rfl, rfl⟩, C6_amended_no_final_record pC6 rStep0 sC6 sC6out rfl rfl rfl⟩

/-- A failing per-agent check makes setup fail for any population of at
least one agent. -/
theorem setupAgentsGo_error (p : Params) (uss uss2 : Nat → List ℚ) (e : SetupError)
    (hc : Agent.setupCheck p = Except.error e) :
    ∀ k, 1 ≤ k → Model.setupAgentsGo p uss uss2 k = Except.error e := by
  intro k hk
  induction k with
  | zero => omega
  | succ m ih =>
    cases m with
    | zero => rw [Model.setupAgentsGo, Model.setupAgentsGo, hc]
    | succ l =>
      have h1 := ih (by omega)
      rw [Model.setupAgentsGo, h1]

/-- A passing per-agent check makes setup succeed for any population. -/
theorem setupAgentsGo_ok (p : Params) (uss uss2 : Nat → List ℚ)
    (hc : Agent.setupCheck p = Except.ok ()) :
    ∀ k, ∃ l, Model.setupAgentsGo p uss uss2 k = Except.ok l := by
  intro k
  induction k with
  | zero => exact ⟨[], rfl⟩
  | succ m ih =>
    obtain ⟨l, hl⟩ := ih
    refine ⟨l ++ [Model.setupAgent p (m + 1) (uss m) (uss2 m)], ?_⟩
    rw [Model.setupAgentsGo, hl, hc]

/-- An out-of-range initial_frequency fails numpy's probability check. -/
theorem setupCheck_invalid (p : Params)
    (h : ¬(0 ≤ p.initial_frequency ∧ p.initial_frequency ≤ 1)) :
    Agent.setupCheck p = Except.error SetupError.invalidProbabilities := by
  unfold Agent.setupCheck
  rw [if_neg h]

/-- memory_size 0 fails with the division error in Agent.setup. -/
theorem setupCheck_zero (p : Params)
    (h1 : 0 ≤ p.initial_frequency ∧ p.initial_frequency ≤ 1) (h2 : p.memory_size = 0) :
    Agent.setupCheck p = Except.error SetupError.zeroDivision := by
  unfold Agent.setupCheck
  rw [if_pos h1, if_pos h2]

/-- With valid initial_frequency and positive memory_size the per-agent
check passes; no other parameter is inspected. -/
theorem setupCheck_ok (p : Params)
    (h1 : 0 ≤ p.initial_frequency ∧ p.initial_frequency ≤ 1) (h2 : p.memory_size ≠ 0) :
    Agent.setupCheck p = Except.ok () := by
  unfold Agent.setupCheck
  rw [if_pos h1, if_neg h2]

/-- Counterexample to claim C7: a concrete invalid configuration — n
greater than the agent count and selection_pressure greater than 1 — is
accepted by setup with no error of any kind, instead of failing fast. -/
theorem C7_cex_invalid_config_accepted :
    pC7bad.agents < pC7bad.n ∧ 1 < pC7bad.selection_pressure ∧
      (Model.setupE pC7bad ussC7 ussC7).toOption.isSome = true := by
  refine ⟨by decide, by norm_num [pC7bad], ?_⟩
  obtain ⟨l, hl⟩ := setupAgentsGo_ok pC7bad ussC7 ussC7
    (setupCheck_ok pC7bad (by norm_num [pC7bad]) (by decide)) pC7bad.agents
  unfold Model.setupE
  rw [hl]
  rfl

/-- Claim C7 as amended: setup performs no explicit configuration
validation.  With at least one agent, an initial_frequency outside [0,1]
does make setup fail (numpy rejects the probability vector) and
memory_size = 0 makes it fail with a division error; but n outside
[0, agent_count] and selection_pressure outside [0,1] are silently
accepted: with those two parameters arbitrary, setup succeeds whenever
initial_frequency is valid and memory_size is positive. -/
theorem C7_amended_no_validation (p : Params) (uss uss2 : Nat → List ℚ) :
    (1 ≤ p.agents → ¬(0 ≤ p.initial_frequency ∧ p.initial_frequency ≤ 1) →
        Model.setupE p uss uss2 = Except.error SetupError.invalidProbabilities) ∧
      (1 ≤ p.agents → (0 ≤ p.initial_frequency ∧ p.initial_frequency ≤ 1) →
        p.memory_size = 0 →
        Model.setupE p uss uss2 = Except.error SetupError.zeroDivision) ∧
      ((0 ≤ p.initial_frequency ∧ p.initial_frequency ≤ 1) → 0 < p.memory_size →
        (Model.setupE p uss uss2).toOption.isSome = true) := by
  refine ⟨?_, ?_, ?_⟩
  · intro ha hf
    exact setupAgentsGo_error p uss uss2 _ (setupCheck_invalid p hf) p.agents ha
  · intro ha hf hm
    exact setupAgentsGo_error p uss uss2 _ (setupCheck_zero p hf hm) p.agents ha
  · intro hf hm
    obtain ⟨l, hl⟩ := setupAgentsGo_ok p uss uss2 (setupCheck_ok p hf (by omega)) p.agents
    unfold Model.setupE
    rw [hl]
    rfl

/-- Witness for the amended C7 at the concrete invalid configuration. -/
theorem C7_amended_no_validation_witness :
    ((0 ≤ pC7bad.initial_frequency ∧ pC7bad.initial_frequency ≤ 1) ∧
        0 < pC7bad.memory_size) ∧
      (Model.setupE pC7bad ussC7 ussC7).toOption.isSome = true :=
  ⟨⟨⟨by norm_num [pC7bad], by norm_num [pC7bad]⟩, by decide⟩,
    (C7_amended_no_validation pC7bad ussC7 ussC7).2.2
      ⟨by norm_num [pC7bad], by norm_num [pC7bad]⟩ (by decide)⟩

/-- Uniform draws below 1 make the p = [1, 0] overwrite produce all A. -/
theorem sampleMemory_one (vs : List ℚ) (hvs : ∀ v ∈ vs, 0 ≤ v ∧ v < 1) :
    sampleMemory 1 vs = List.replicate vs.length (some Token.A) := by
  induction vs with
  | nil => rfl
  | cons w ws ih =>
    have hw : w < 1 := (hvs w (List.mem_cons_self w ws)).2
    have ih2 := ih (fun v hv => hvs v (List.mem_cons.mpr (Or.inr hv)))
    show some (sampleToken 1 w) :: sampleMemory 1 ws =
      some Token.A :: List.replicate ws.length (some Token.A)
    rw [ih2]
    unfold sampleToken
    rw [if_pos hw]

/-- Non-negative draws make the p = [0, 1] overwrite produce all B. -/
theorem sampleMemory_zero (vs : List ℚ) (hvs : ∀ v ∈ vs, 0 ≤ v ∧ v < 1) :
    sampleMemory 0 vs = List.replicate vs.length (some Token.B) := by
  induction vs with
  | nil => rfl
  | cons w ws ih =>
    have hw : ¬w < 0 := not_lt.mpr (hvs w (List.mem_cons_self w ws)).1
    have ih2 := ih (fun v hv => hvs v (List.mem_cons.mpr (Or.inr hv)))
    show some (sampleToken 0 w) :: sampleMemory 0 ws =
      some Token.B :: List.replicate ws.length (some Token.B)
    rw [ih2]
    unfold sampleToken
    rw [if_neg hw]

/-- Claim C10: with interactor selection enabled, setup overwrites a
privileged agent's (id <= n) x to 1 and its memory to all A tokens, and
an ordinary agent's (id > n) x to 0 and its memory to all B tokens, but
leaves updated_x at initial_frequency; consequently the agent's first
speak samples A exactly when the uniform draw is below initial_frequency
— probability initial_frequency, independent of role — until its first
update runs. -/
theorem C10_interactor_setup (p : Params) (aid : Nat) (us us2 : List ℚ) (u : ℚ)
    (hint : p.interactor_selection = true)
    (hus2 : ∀ v ∈ us2, 0 ≤ v ∧ v < 1)
    (hlen : us2.length = p.memory_size) :
    (aid ≤ p.n →
        (Model.setupAgent p aid us us2).x = 1 ∧
          (Model.setupAgent p aid us us2).memory =
            List.replicate p.memory_size (some Token.A)) ∧
      (p.n < aid →
        (Model.setupAgent p aid us us2).x = 0 ∧
          (Model.setupAgent p aid us us2).memory =
            List.replicate p.memory_size (some Token.B)) ∧
      (Model.setupAgent p aid us us2).updated_x = p.initial_frequency ∧
      ((Agent.speak (Model.setupAgent p aid us us2) u).sampled_token = some Token.A ↔
        u < p.initial_frequency) := by
  have hbranch : Model.setupAgent p aid us us2 =
      (if aid ≤ p.n then
        { Agent.setup p aid us with x := 1, memory := sampleMemory 1 us2 }
      else
        { Agent.setup p aid us with x := 0, memory := sampleMemory 0 us2 }) := by
    unfold Model.setupAgent
    rw [hint]
    rfl
  have hux : (Model.setupAgent p aid us us2).updated_x = p.initial_frequency := by
    rw [hbranch]
    by_cases h : aid ≤ p.n
    · rw [if_pos h]
      rfl
    · rw [if_neg h]
      rfl
  have hspeak : ((Agent.speak (Model.setupAgent p aid us us2) u).sampled_token =
      some Token.A ↔ u < p.initial_frequency) := by
    show some (sampleToken (Model.setupAgent p aid us us2).updated_x u) = some Token.A ↔
      u < p.initial_frequency
    rw [hux]
    unfold sampleToken
    by_cases hu : u < p.initial_frequency
    · simp [hu]
    · simp [hu]
  refine ⟨?_, ?_, hux, hspeak⟩
  · intro h
    rw [hbranch, if_pos h]
    refine ⟨rfl, ?_⟩
    show sampleMemory 1 us2 = List.replicate p.memory_size (some Token.A)
    rw [sampleMemory_one us2 hus2, hlen]
  · intro h
    rw [hbranch, if_neg (by omega : ¬aid ≤ p.n)]
    refine ⟨rfl, ?_⟩
    show sampleMemory 0 us2 = List.replicate p.memory_size (some Token.B)
    rw [sampleMemory_zero us2 hus2, hlen]

/-- The concrete C10 draws lie in [0,1). -/
theorem usC10_bounds : ∀ v ∈ usC10, 0 ≤ v ∧ v < 1 := by
  intro v hv
  simp only [usC10, List.mem_cons, List.not_mem_nil, or_false] at hv
  rcases hv with rfl | rfl
  · norm_num
  · norm_num

/-- Witness for C10 at a concrete privileged agent. -/
theorem C10_interactor_setup_witness :
    (pC1.interactor_selection = true ∧ (∀ v ∈ usC10, 0 ≤ v ∧ v < 1) ∧
        usC10.length = pC1.memory_size) ∧
      ((1 ≤ pC1.n →
          (Model.setupAgent pC1 1 usC10 usC10).x = 1 ∧
            (Model.setupAgent pC1 1 usC10 usC10).memory =
              List.replicate pC1.memory_size (some Token.A)) ∧
        (pC1.n < 1 →
          (Model.setupAgent pC1 1 usC10 usC10).x = 0 ∧
            (Model.setupAgent pC1 1 usC10 usC10).memory =
              List.replicate pC1.memory_size (some Token.B)) ∧
        (Model.setupAgent pC1 1 usC10 usC10).updated_x = pC1.initial_frequency ∧
        ((Agent.speak (Model.setupAgent pC1 1 usC10 usC10) 0).sampled_token =
            some Token.A ↔ (0 : ℚ) < pC1.initial_frequency)) :=
  ⟨⟨rfl, usC10_bounds, rfl⟩,
    C10_interactor_setup pC1 1 usC10 usC10 0 rfl usC10_bounds rfl⟩

end LangChange
